import Mathlib

set_option maxRecDepth 8000

/-! Verification of the core shortcut-database logic of add-to-steam.py.

Bytes are modelled as natural numbers (each below 256 for real data) and byte
strings as lists of naturals; Python strings are represented by their UTF-8
byte sequences, so string concatenation becomes list append. -/

/-- ASCII bytes of a pure-ASCII string literal (UTF-8 encoding of the
Python string literals appearing in the source). -/
def asciiBytes (s : String) : List Nat := s.data.map Char.toNat

/-- Tests whether a byte is an ASCII decimal digit, the byte class matched by
the regex class in the pattern of get_latest_index. -/
def isDigit (b : Nat) : Bool := 48 ≤ b && b ≤ 57

/-- One step of the scanner state for the regex scan of get_latest_index
over the pattern "zero byte, one or more digits, zero byte".
State none: not inside a candidate match. State some ds: an opening zero
byte has been consumed and ds are the digit bytes read since then.
On a zero byte with ds nonempty the match completes (the closing zero byte
is consumed, exactly as the non-overlapping scan of re.findall consumes it),
so the next state is none; on a zero byte with ds empty the zero byte can
itself serve as an opening byte, so the candidate restarts. -/
def stepState (s : Option (List Nat)) (b : Nat) : Option (List Nat) :=
  match s with
  | none => if b = 0 then some [] else none
  | some ds =>
    if b = 0 then (if ds = [] then some [] else none)
    else if isDigit b then some (ds ++ [b]) else none

/-- Digit groups emitted by one scanner step: a completed match is emitted
exactly when a zero byte closes a nonempty digit run. -/
def stepOut (s : Option (List Nat)) (b : Nat) : List (List Nat) :=
  match s with
  | none => []
  | some ds => if b = 0 then (if ds = [] then [] else [ds]) else []

/-- All digit groups found by the left-to-right non-overlapping scan,
modelling re.findall with the raw pattern "zero byte, captured digits,
zero byte" as used at line 117 of add-to-steam.py. -/
def findallDigits (s : Option (List Nat)) : List Nat → List (List Nat)
  | [] => []
  | b :: rest => stepOut s b ++ findallDigits (stepState s b) rest

/-- The matches of the regex scan of get_latest_index on a byte string. -/
def findall (data : List Nat) : List (List Nat) := findallDigits none data

/-- Scanner state after consuming a byte string. -/
def finalState (s : Option (List Nat)) : List Nat → Option (List Nat)
  | [] => s
  | b :: rest => finalState (stepState s b) rest

/-- Integer value of a big-endian ASCII digit string, modelling the Python
int() conversion applied to a matched digit group. -/
def parseDigits (l : List Nat) : Nat := l.foldl (fun a b => a * 10 + (b - 48)) 0

/-- Model of get_latest_index (lines 112-120): the integer value of the last
match of the scan, or -1 when there is no match. -/
def get_latest_index (data : List Nat) : Int :=
  match (findall data).getLast? with
  | some d => (parseDigits d : Int)
  | none => -1

/-- The next free index as computed at line 123: get_latest_index plus one. -/
def nextIndexInt (data : List Nat) : Int := get_latest_index data + 1

/-- The next free index as a natural number; get_latest_index is at least -1,
so the truncation is exact. -/
def nextIndexNat (data : List Nat) : Nat := (nextIndexInt data).toNat

/-- Little-endian ASCII decimal digits of n, with fuel for structural
recursion (fuel at least n always suffices, since n divided by 10 shrinks). -/
def decAux : Nat → Nat → List Nat
  | 0, _ => []
  | _, 0 => []
  | fuel + 1, n + 1 => ((n + 1) % 10 + 48) :: decAux fuel ((n + 1) / 10)

/-- ASCII decimal representation of a natural number, modelling the Python
str(n).encode() for a nonnegative integer n. -/
def decBytes (n : Nat) : List Nat :=
  if n = 0 then [48] else (decAux n n).reverse

/-- The four bytes of a 32-bit unsigned little-endian integer, modelling
struct.pack with format "<I" (line 144) for values below 2 to the 32. -/
def u32le (n : Nat) : List Nat :=
  [n % 256, n / 256 % 256, n / 65536 % 256, n / 16777216 % 256]

/-- The one domain-specific failure: the blob does not end with the two-byte
terminator, so no insertion is attempted (lines 171-173). -/
inductive StructureError : Type where
  | unrecognized : StructureError
deriving DecidableEq

/-- Model of the splice at lines 166-173: if data ends with the two bytes
8, 8 the new entry is inserted immediately before them, otherwise the
operation fails. The Python test data.endswith of the two terminator bytes
holds exactly when the last two bytes (data.drop of length minus 2) are
8, 8, which also forces the length to be at least 2. -/
def insertData (data entry : List Nat) : Except StructureError (List Nat) :=
  if data.drop (data.length - 2) = [8, 8] then
    Except.ok (data.take (data.length - 2) ++ entry ++ [8, 8])
  else Except.error StructureError.unrecognized

/-- The observable effect of the insert phase on the backing file together
with the process exit status: on success the file is overwritten with the
spliced data and the run continues (status 0); on failure the program exits
with status 1 and the file keeps its previous bytes (no write is reached). -/
def applyInsert (data entry : List Nat) : List Nat × Nat :=
  match insertData data entry with
  | Except.ok d => (d, 0)
  | Except.error _ => (data, 1)

/-- Next free index of the database obtained by a successful insert, or none
when the insert fails. -/
def nextIndexAfterInsert (data entry : List Nat) : Option Int :=
  match insertData data entry with
  | Except.ok d => some (nextIndexInt d)
  | Except.error _ => none

/-- One bit-reversal round of the zlib CRC-32 update (polynomial
0xEDB88320, reflected form). -/
def crcRound (c : Nat) : Nat := if c % 2 = 1 then (c / 2) ^^^ 0xEDB88320 else c / 2

/-- CRC-32 update for one input byte: xor the byte into the accumulator,
then eight polynomial rounds. -/
def crcByte (c b : Nat) : Nat := crcRound^[8] (c ^^^ b)

/-- Standard zlib/gzip CRC-32 of a byte string (initial value 0xFFFFFFFF,
final xor 0xFFFFFFFF), modelling the library function zlib.crc32 called at
line 162; the classic check value on the bytes of "123456789" is proved
below as evidence of fidelity. -/
def crc32 (bytes : List Nat) : Nat :=
  (bytes.foldl crcByte 0xFFFFFFFF) ^^^ 0xFFFFFFFF

/-- The fixed display name of the shortcut (line 22). -/
def APPNAME : List Nat := asciiBytes "Minecraft Splitscreen"

/-- Model of the appid computation at line 162: the CRC-32 of the
concatenated name and executable path, masked to 32 bits, with the top bit
forced on. In Python the bitwise-and binds tighter than the bitwise-or, so
the expression groups exactly this way. -/
def appid (appname exe : List Nat) : Nat :=
  0x80000000 ||| (crc32 (appname ++ exe) &&& 0xFFFFFFFF)

/-- Model of make_entry (lines 126-159), mirroring the incremental
construction of the entry bytes in the source. -/
def make_entry (index appid : Nat) (appname exe startdir config_dir : List Nat) : List Nat :=
  let x00 : List Nat := [0]
  let x01 : List Nat := [1]
  let x02 : List Nat := [2]
  let x08 : List Nat := [8]
  let b0 : List Nat := []
  let b1 := b0 ++ (x00 ++ decBytes index ++ x00)
  let b2 := b1 ++ (x02 ++ asciiBytes "appid" ++ x00 ++ u32le appid)
  let b3 := b2 ++ (x01 ++ asciiBytes "appname" ++ x00 ++ appname ++ x00)
  let b4 := b3 ++ (x01 ++ asciiBytes "exe" ++ x00 ++ exe ++ x00)
  let b5 := b4 ++ (x01 ++ asciiBytes "StartDir" ++ x00 ++ startdir ++ x00)
  let b6 := b5 ++ (x01 ++ asciiBytes "icon" ++ x00 ++ config_dir ++ asciiBytes "/grid/"
      ++ decBytes appid ++ asciiBytes "_icon.ico" ++ x00)
  b6 ++ x08

/-- The bytes of an encoded entry after its opening index marker: all typed
fields followed by the closing end-of-entry byte. -/
def entryTail (appid : Nat) (appname exe startdir config_dir : List Nat) : List Nat :=
  [2] ++ asciiBytes "appid" ++ [0] ++ u32le appid
  ++ ([1] ++ asciiBytes "appname" ++ [0] ++ appname ++ [0])
  ++ ([1] ++ asciiBytes "exe" ++ [0] ++ exe ++ [0])
  ++ ([1] ++ asciiBytes "StartDir" ++ [0] ++ startdir ++ [0])
  ++ ([1] ++ asciiBytes "icon" ++ [0] ++ config_dir ++ asciiBytes "/grid/"
      ++ decBytes appid ++ asciiBytes "_icon.ico" ++ [0])
  ++ [8]

/-- The byte sequence claim C3 prescribes for an encoded record, spelled
field by field following the words of the claim. -/
def encodeClaimC3 (i appId : Nat) (displayName executablePath startDirectory iconPathPre : List Nat) :
    List Nat :=
  [0] ++ decBytes i ++ [0]
  ++ ([2] ++ asciiBytes "appid" ++ [0] ++ u32le appId)
  ++ ([1] ++ asciiBytes "appname" ++ [0] ++ displayName ++ [0])
  ++ ([1] ++ asciiBytes "exe" ++ [0] ++ executablePath ++ [0])
  ++ ([1] ++ asciiBytes "StartDir" ++ [0] ++ startDirectory ++ [0])
  ++ ([1] ++ asciiBytes "icon" ++ [0]
      ++ (iconPathPre ++ asciiBytes "/grid/" ++ decBytes appId ++ asciiBytes "_icon.ico") ++ [0])
  ++ [8]

/-- The minimal empty-database skeleton written at line 105. -/
def skeleton : List Nat := [0] ++ asciiBytes "shortcuts" ++ [0] ++ [8, 8]

/-- Model of the open step at lines 101-109 on an abstract file state: when
the file is absent the skeleton is written (one write of the whole skeleton)
and returned, otherwise the existing bytes are returned and the file is left
unchanged. The result pairs the file content after the step with the bytes
handed to the rest of the program. -/
def openDb (file : Option (List Nat)) : List Nat × List Nat :=
  match file with
  | none => (skeleton, skeleton)
  | some d => (d, d)

/-- One full run of the database phase of the program on in-memory data
(lines 123, 162-169): compute the next index, compute the appid from the
fixed display name and the executable path, build the entry, and splice it
in; the pair returned carries the new file bytes and the index used. -/
def runOnce (exe startdir config_dir data : List Nat) : Except StructureError (List Nat × Nat) :=
  match insertData data
      (make_entry (nextIndexNat data) (appid APPNAME exe) APPNAME exe startdir config_dir) with
  | Except.ok d => Except.ok (d, nextIndexNat data)
  | Except.error e => Except.error e

/-- The database bytes produced by a successful run on data, written out
explicitly: everything before the terminator, the one new record, the
terminator. -/
def afterRun (exe startdir config_dir data : List Nat) : List Nat :=
  data.take (data.length - 2)
  ++ make_entry (nextIndexNat data) (appid APPNAME exe) APPNAME exe startdir config_dir ++ [8, 8]

/-- Statement that one run on data succeeds, uses index n and the appid
derived from the fixed name and exe, and changes the database only by
appending that one fully encoded record before the terminator. -/
def growsByOne (exe startdir config_dir data : List Nat) (n : Nat) : Prop :=
  runOnce exe startdir config_dir data =
    Except.ok (data.take (data.length - 2)
      ++ make_entry n (appid APPNAME exe) APPNAME exe startdir config_dir ++ [8, 8], n)

/-- Indices assigned by two consecutive runs with identical inputs, or none
if either run fails. -/
def runTwiceIndices (exe startdir config_dir data : List Nat) : Option (Nat × Nat) :=
  match runOnce exe startdir config_dir data with
  | Except.ok p =>
    match runOnce exe startdir config_dir p.1 with
    | Except.ok q => some (p.2, q.2)
    | Except.error _ => none
  | Except.error _ => none

/-- Modelled from the words of claim C5: the digit group of the rightmost
occurrence (overlapping occurrences included) of the pattern "zero byte,
one or more digits, zero byte" in a byte string. -/
def rightmostMatch : List Nat → Option (List Nat)
  | [] => none
  | b :: rest =>
    let here : Option (List Nat) :=
      if b = 0 ∧ rest.takeWhile isDigit ≠ [] ∧ (rest.dropWhile isDigit).head? = some 0 then
        some (rest.takeWhile isDigit)
      else none
    match rightmostMatch rest with
    | some later => some later
    | none => here

/-- Modelled from the words of claim C5: return 0 when the pattern does not
occur, otherwise one plus the value of the digits of the rightmost
occurrence. -/
def nextIndexSpecC5 (data : List Nat) : Int :=
  match rightmostMatch data with
  | none => 0
  | some d => (parseDigits d : Int) + 1

/-- A concrete well-formed database holding records at indices 0, 1 and 4
with benign field values, used to check the index-monotonicity example of
claim C5. -/
def db014 : List Nat :=
  [0] ++ asciiBytes "shortcuts" ++ [0]
  ++ make_entry 0 2147483648 (asciiBytes "MC") (asciiBytes "/e") (asciiBytes "/d") (asciiBytes "/c")
  ++ make_entry 1 2147483648 (asciiBytes "MC") (asciiBytes "/e") (asciiBytes "/d") (asciiBytes "/c")
  ++ make_entry 4 2147483648 (asciiBytes "MC") (asciiBytes "/e") (asciiBytes "/d") (asciiBytes "/c")
  ++ [8, 8]

/-- Appending byte strings splits the scan: the second part is scanned from
the state the first part ends in. -/
theorem findallDigits_append (xs : List Nat) :
    ∀ (s : Option (List Nat)) (ys : List Nat),
      findallDigits s (xs ++ ys) = findallDigits s xs ++ findallDigits (finalState s xs) ys := by
  induction xs with
  | nil => intro s ys; simp [findallDigits, finalState]
  | cons b rest ih => intro s ys; simp [findallDigits, finalState, ih]

/-- A nonempty digit run closed by a zero byte completes the pending match
and returns the scanner to the idle state. -/
theorem findallDigits_digits (D : List Nat) (hD : ∀ b, b ∈ D → isDigit b = true) :
    ∀ ds T, ds ++ D ≠ [] →
      findallDigits (some ds) (D ++ 0 :: T) = (ds ++ D) :: findallDigits none T := by
  induction D with
  | nil =>
    intro ds T hne
    have hds : ds ≠ [] := by simpa using hne
    simp [findallDigits, stepOut, stepState, hds]
  | cons d D ih =>
    intro ds T hne
    have hd : isDigit d = true := hD d (List.mem_cons_self d D)
    have hd0 : d ≠ 0 := by
      intro h
      rw [h] at hd
      simp [isDigit] at hd
    have hD2 : ∀ b, b ∈ D → isDigit b = true := fun b hb => hD b (List.mem_cons_of_mem d hb)
    have hstep : findallDigits (some ds) ((d :: D) ++ 0 :: T)
        = findallDigits (some (ds ++ [d])) (D ++ 0 :: T) := by
      simp [findallDigits, stepOut, stepState, hd0, hd]
    rw [hstep, ih hD2 (ds ++ [d]) T (by simp)]
    simp

/-- Every byte produced by decAux is an ASCII digit. -/
theorem decAux_isDigit : ∀ fuel n b, b ∈ decAux fuel n → isDigit b = true := by
  intro fuel
  induction fuel with
  | zero => intro n b hb; simp [decAux] at hb
  | succ fuel ih =>
    intro n b hb
    cases n with
    | zero => simp [decAux] at hb
    | succ m =>
      simp only [decAux, List.mem_cons] at hb
      rcases hb with hb | hb
      · have hm : (m + 1) % 10 < 10 := Nat.mod_lt _ (by omega)
        subst hb
        simp [isDigit]
        omega
      · exact ih _ b hb

/-- Reading the little-endian digits of decAux back in big-endian order
recovers the number, as long as the fuel covers it. -/
theorem decAux_foldr : ∀ fuel n, n ≤ fuel →
    (decAux fuel n).foldr (fun b a => a * 10 + (b - 48)) 0 = n := by
  intro fuel
  induction fuel with
  | zero =>
    intro n hn
    have : n = 0 := by omega
    subst this
    simp [decAux]
  | succ fuel ih =>
    intro n hn
    cases n with
    | zero => simp [decAux]
    | succ m =>
      have hle : (m + 1) / 10 ≤ fuel := by
        have := Nat.div_lt_self (Nat.succ_pos m) (by omega : 1 < 10)
        omega
      simp only [decAux, List.foldr_cons, ih _ hle]
      omega

/-- Every byte of a decimal representation is an ASCII digit. -/
theorem decBytes_isDigit (n : Nat) : ∀ b, b ∈ decBytes n → isDigit b = true := by
  intro b hb
  by_cases h : n = 0
  · subst h
    simp [decBytes] at hb
    subst hb
    decide
  · unfold decBytes at hb
    rw [if_neg h, List.mem_reverse] at hb
    exact decAux_isDigit n n b hb

/-- A decimal representation is never empty. -/
theorem decBytes_ne_nil (n : Nat) : decBytes n ≠ [] := by
  by_cases h : n = 0
  · subst h; simp [decBytes]
  · unfold decBytes
    rw [if_neg h]
    cases n with
    | zero => exact absurd rfl h
    | succ m => simp [decAux]

/-- Parsing the decimal representation of n gives back n: the model of
int() is a left inverse of the model of str(). -/
theorem parseDigits_decBytes (n : Nat) : parseDigits (decBytes n) = n := by
  by_cases h : n = 0
  · subst h; decide
  · unfold parseDigits decBytes
    rw [if_neg h, List.foldl_reverse]
    exact decAux_foldr n n (le_refl n)

/-- The last two bytes of t followed by the terminator are the terminator. -/
theorem drop88_of_append (t : List Nat) :
    (t ++ [8, 8]).drop ((t ++ [8, 8]).length - 2) = [8, 8] := by
  have h : (t ++ [8, 8]).length - 2 = t.length := by simp
  rw [h, List.drop_left]

/-- Taking all but the last two bytes of t followed by the terminator
gives back t. -/
theorem take88_of_append (t : List Nat) :
    (t ++ [8, 8]).take ((t ++ [8, 8]).length - 2) = t := by
  have h : (t ++ [8, 8]).length - 2 = t.length := by simp
  rw [h, List.take_left]

/-- A byte string whose last two bytes are the terminator splits as its
front part followed by the terminator. -/
theorem exists_of_drop88 (data : List Nat) (h : data.drop (data.length - 2) = [8, 8]) :
    data = data.take (data.length - 2) ++ [8, 8] := by
  conv_lhs => rw [← List.take_append_drop (data.length - 2) data]
  rw [h]

/-- An encoded entry is its opening index marker followed by its tail. -/
theorem make_entry_decomp (i a : Nat) (nm ex sd cfg : List Nat) :
    make_entry i a nm ex sd cfg = 0 :: (decBytes i ++ 0 :: entryTail a nm ex sd cfg) := by
  simp [make_entry, entryTail]

/-- Core scan lemma for splices: when the part before the insertion point
does not end inside a candidate match, and the inserted tail together with
the re-appended terminator contains no match, the scan of the spliced blob
finds exactly the old matches followed by the new index digits. -/
theorem findall_insert (t T D : List Nat)
    (hmid : finalState none t = none ∨ finalState none t = some [])
    (hD : ∀ b, b ∈ D → isDigit b = true) (hDne : D ≠ [])
    (hT : findallDigits none (T ++ [8, 8]) = []) :
    findall (t ++ (0 :: (D ++ 0 :: T)) ++ [8, 8]) = findall t ++ [D] := by
  have h1 : t ++ (0 :: (D ++ 0 :: T)) ++ [8, 8] = t ++ (0 :: (D ++ 0 :: (T ++ [8, 8]))) := by
    simp
  rw [findall, findall, h1, findallDigits_append]
  have h3 : stepOut (finalState none t) 0 = [] := by
    rcases hmid with h | h <;> rw [h] <;> simp [stepOut]
  have h4 : stepState (finalState none t) 0 = some [] := by
    rcases hmid with h | h <;> rw [h] <;> simp [stepState]
  have h2 : findallDigits (finalState none t) (0 :: (D ++ 0 :: (T ++ [8, 8]))) = [D] := by
    rw [show findallDigits (finalState none t) (0 :: (D ++ 0 :: (T ++ [8, 8])))
        = stepOut (finalState none t) 0
          ++ findallDigits (stepState (finalState none t) 0) (D ++ 0 :: (T ++ [8, 8])) from rfl]
    rw [h3, h4, findallDigits_digits D hD [] (T ++ [8, 8]) (by simpa using hDne), hT]
    simp
  rw [h2]

/-- Value of the next-index computation on a freshly spliced blob: under the
hypotheses of the scan lemma it is the spliced index plus one. -/
theorem nextIndexInt_insert (t T : List Nat) (i : Nat)
    (hmid : finalState none t = none ∨ finalState none t = some [])
    (hT : findallDigits none (T ++ [8, 8]) = []) :
    nextIndexInt (t ++ (0 :: (decBytes i ++ 0 :: T)) ++ [8, 8]) = (i : Int) + 1 := by
  unfold nextIndexInt get_latest_index
  rw [findall_insert t T (decBytes i) hmid (decBytes_isDigit i) (decBytes_ne_nil i) hT]
  rw [List.getLast?_concat]
  simp [parseDigits_decBytes]

/-- The classical CRC-32 check value: evidence that the crc32 model agrees
with the zlib/gzip checksum. -/
theorem crc32_check_value : crc32 (asciiBytes "123456789") = 0xCBF43926 := by decide

/-- C1: for every blob ending in the two terminator bytes 8, 8 and every
encoded record, insert returns exactly the blob with its final two bytes
removed, then the record, then the final two bytes re-appended; every byte
of the existing content is preserved and the only change is the insertion
of the record immediately before the final terminator. -/
theorem C1_splice_exact (data entry : List Nat)
    (h : data.drop (data.length - 2) = [8, 8]) :
    insertData data entry =
      Except.ok (data.take (data.length - 2) ++ entry ++ data.drop (data.length - 2)) := by
  rw [insertData, if_pos h, h]

/-- Witness for C1 at the two-byte blob 0, 8, 8 and the record 5. -/
theorem C1_splice_exact_witness :
    [0, 8, 8].drop ([0, 8, 8].length - 2) = [8, 8] ∧
    insertData [0, 8, 8] [5] =
      Except.ok ([0, 8, 8].take ([0, 8, 8].length - 2) ++ [5]
        ++ [0, 8, 8].drop ([0, 8, 8].length - 2)) :=
  ⟨by decide, C1_splice_exact [0, 8, 8] [5] (by decide)⟩

/-- C2: when the blob does not end with the two bytes 8, 8, the insert
fails with the structure error, the run exits with status 1, and the file
keeps its previous bytes: no write is performed. -/
theorem C2_structure_rejection (data entry : List Nat)
    (h : ¬ data.drop (data.length - 2) = [8, 8]) :
    insertData data entry = Except.error StructureError.unrecognized ∧
    applyInsert data entry = (data, 1) := by
  have h1 : insertData data entry = Except.error StructureError.unrecognized := by
    rw [insertData, if_neg h]
  exact ⟨h1, by rw [applyInsert, h1]⟩

/-- Witness for C2 at the unterminated blob 1, 2, 3. -/
theorem C2_structure_rejection_witness :
    ¬ ([1, 2, 3].drop ([1, 2, 3].length - 2) = [8, 8]) ∧
    (insertData [1, 2, 3] [9] = Except.error StructureError.unrecognized ∧
      applyInsert [1, 2, 3] [9] = ([1, 2, 3], 1)) :=
  ⟨by decide, C2_structure_rejection [1, 2, 3] [9] (by decide)⟩

/-- C3: the encoder emits exactly the byte sequence the claim prescribes,
field by field, in that order and with those names, for every index, every
32-bit appid and all field strings. -/
theorem C3_encode_layout (i a : Nat)
    (displayName executablePath startDirectory iconPathPre : List Nat)
    (ha : a < 2 ^ 32) :
    make_entry i a displayName executablePath startDirectory iconPathPre =
      encodeClaimC3 i a displayName executablePath startDirectory iconPathPre := by
  simp [make_entry, encodeClaimC3]

/-- Witness for C3 at index 2, appid 7 and one-byte field values. -/
theorem C3_encode_layout_witness :
    (7 : Nat) < 2 ^ 32 ∧
    make_entry 2 7 [65] [66] [67] [68] = encodeClaimC3 2 7 [65] [66] [67] [68] :=
  ⟨by decide, C3_encode_layout 2 7 [65] [66] [67] [68] (by decide)⟩

/-- C4: the appid is the zlib CRC-32 of the concatenated name and path
bytes, masked to 32 bits and or-ed with 0x80000000; it is deterministic in
its two inputs, its most significant (31st) bit is always set, and it fits
in 32 bits. -/
theorem C4_appid_properties (displayName executablePath : List Nat) :
    appid displayName executablePath
        = (crc32 (displayName ++ executablePath) &&& 0xFFFFFFFF) ||| 0x80000000 ∧
    (∀ n2 e2 : List Nat, displayName = n2 → executablePath = e2 →
      appid displayName executablePath = appid n2 e2) ∧
    Nat.testBit (appid displayName executablePath) 31 = true ∧
    appid displayName executablePath < 2 ^ 32 := by
  refine ⟨?_, ?_, ?_, ?_⟩
  · rw [appid]
    exact Nat.lor_comm _ _
  · intro n2 e2 h1 h2
    subst h1
    subst h2
    rfl
  · rw [appid, Nat.testBit_or]
    have h : Nat.testBit 0x80000000 31 = true := by decide
    rw [h]
    rfl
  · rw [appid]
    exact Nat.or_lt_two_pow (by decide)
      (Nat.and_lt_two_pow _ (by decide : (0xFFFFFFFF : Nat) < 2 ^ 32))

/-- Witness for C4 at the program's fixed display name and a sample path. -/
theorem C4_appid_properties_witness :
    Nat.testBit (appid APPNAME (asciiBytes "/run.sh")) 31 = true ∧
    appid APPNAME (asciiBytes "/run.sh") < 2 ^ 32 :=
  ⟨(C4_appid_properties APPNAME (asciiBytes "/run.sh")).2.2.1,
    (C4_appid_properties APPNAME (asciiBytes "/run.sh")).2.2.2⟩

/-- C5 counterexample: on the bytes 0, "1", 0, "2", 0 the rightmost
occurrence of the pattern, as the claim reads, holds the digit 2, so the
claim demands the result 3; but the non-overlapping scan of the code
consumes the middle zero byte as the closing byte of the first match, never
sees the second occurrence, and the code returns 2. -/
theorem C5_counterexample :
    nextIndexSpecC5 [0, 49, 0, 50, 0] = 3 ∧ nextIndexInt [0, 49, 0, 50, 0] = 2 ∧
    nextIndexSpecC5 [0, 49, 0, 50, 0] ≠ nextIndexInt [0, 49, 0, 50, 0] :=
  ⟨by decide, by decide, by decide⟩

/-- C5 amended: nextIndex returns one plus the value of the digits of the
last match found by the left-to-right non-overlapping scan (each completed
match consumes its closing zero byte, so of two overlapping occurrences
sharing a zero byte only the left one is found), and 0 when the scan finds
no match; on the fresh skeleton it returns 0 and on a database with records
at indices 0, 1 and 4 it returns 5. -/
theorem C5_nextIndex_amended :
    nextIndexInt skeleton = 0 ∧
    nextIndexInt db014 = 5 ∧
    (∀ data : List Nat, findall data = [] → nextIndexInt data = 0) ∧
    (∀ data d, (findall data).getLast? = some d →
      nextIndexInt data = (parseDigits d : Int) + 1) := by
  refine ⟨by decide, by decide, ?_, ?_⟩
  · intro data h
    unfold nextIndexInt get_latest_index
    rw [h]
    decide
  · intro data d h
    unfold nextIndexInt get_latest_index
    rw [h]

/-- Witness for C5 at the bytes 0, "4", "2", 0, whose only match is 42. -/
theorem C5_nextIndex_amended_witness :
    (findall [0, 52, 50, 0]).getLast? = some [52, 50] ∧
    nextIndexInt [0, 52, 50, 0] = (parseDigits [52, 50] : Int) + 1 :=
  ⟨by decide, C5_nextIndex_amended.2.2.2 [0, 52, 50, 0] [52, 50] (by decide)⟩

/-- C6 counterexample: the blob 0, "7", 8, 8 is well-terminated, yet after
inserting the record encoded for index 3 the scan pairs the zero byte and
digit of the old content with the opening zero byte of the new record,
finds 7 as its last match, and the recomputed next index is 8, not 3 + 1. -/
theorem C6_counterexample :
    nextIndexAfterInsert [0, 55, 8, 8] (make_entry 3 2147483648 [] [] [] []) = some 8 ∧
    (8 : Int) ≠ 3 + 1 :=
  ⟨by decide, by decide⟩

/-- C6 amended: the recomputed next index after a splice is the spliced
index plus one, provided the content before the terminator does not end
inside a candidate match (a zero byte followed only by digits) and the scan
finds no match in the encoded record past its opening index marker with the
terminator re-appended. -/
theorem C6_nextIndex_after_insert (B nm ex sd cfg : List Nat) (i a : Nat)
    (hsuf : B.drop (B.length - 2) = [8, 8])
    (hmid : finalState none (B.take (B.length - 2)) = none ∨
      finalState none (B.take (B.length - 2)) = some [])
    (hT : findallDigits none (entryTail a nm ex sd cfg ++ [8, 8]) = []) :
    nextIndexAfterInsert B (make_entry i a nm ex sd cfg) = some ((i : Int) + 1) := by
  have h1 : insertData B (make_entry i a nm ex sd cfg) =
      Except.ok (B.take (B.length - 2) ++ make_entry i a nm ex sd cfg ++ [8, 8]) := by
    rw [insertData, if_pos hsuf]
  rw [nextIndexAfterInsert, h1]
  show some (nextIndexInt (B.take (B.length - 2) ++ make_entry i a nm ex sd cfg ++ [8, 8]))
      = some ((i : Int) + 1)
  rw [make_entry_decomp]
  rw [nextIndexInt_insert (B.take (B.length - 2)) (entryTail a nm ex sd cfg) i hmid hT]

/-- Witness for C6 on the skeleton with benign one- and two-byte fields. -/
theorem C6_nextIndex_after_insert_witness :
    (skeleton.drop (skeleton.length - 2) = [8, 8] ∧
      findallDigits none
        (entryTail 2147483648 [65] (asciiBytes "/e") (asciiBytes "/d") (asciiBytes "/c")
          ++ [8, 8]) = []) ∧
    nextIndexAfterInsert skeleton
      (make_entry 0 2147483648 [65] (asciiBytes "/e") (asciiBytes "/d") (asciiBytes "/c"))
      = some ((0 : Int) + 1) :=
  ⟨⟨by decide, by decide⟩,
    C6_nextIndex_after_insert skeleton [65] (asciiBytes "/e") (asciiBytes "/d") (asciiBytes "/c")
      0 2147483648 (by decide) (by decide) (by decide)⟩

/-- C7: a well-terminated database whose single, correctly framed record
(index 0) carries a display name value embedding the bytes 0, "7", 0: the
scan takes the embedded digits as its rightmost match, and the recomputed
next index is 8, not one plus the highest record index (0 + 1 = 1). -/
theorem C7_embedded_marker :
    nextIndexAfterInsert skeleton
      (make_entry 0 2147483648 ([65] ++ [0, 55, 0] ++ [66]) (asciiBytes "/e")
        (asciiBytes "/d") (asciiBytes "/c")) = some 8 ∧
    [0, 55, 0] <:+: ([65] ++ [0, 55, 0] ++ [66]) ∧
    (8 : Int) ≠ 0 + 1 :=
  ⟨by decide, ⟨[65], [66], rfl⟩, by decide⟩

/-- C8 counterexample: the skeleton the program writes is 13 bytes, so the
byte positions the claim gives do not fit: byte 11 is the first terminator
byte 8 rather than 0x00, byte 13 does not exist, and bytes 1 through 10 are
not the nine letters of "shortcuts". -/
theorem C8_counterexample :
    skeleton.length = 13 ∧ skeleton[11]? = some 8 ∧ skeleton[13]? = none ∧
    (skeleton.drop 1).take 10 ≠ asciiBytes "shortcuts" :=
  ⟨by decide, by decide, by decide, by decide⟩

/-- C8 amended: when the file is absent, open writes in one step and
returns the 13-byte skeleton whose byte 0 is 0x00, bytes 1 through 9 are
the ASCII letters of "shortcuts", byte 10 is 0x00 and bytes 11 and 12 are
the terminator 8, 8; when the file exists its raw bytes are returned
unchanged. -/
theorem C8_open_skeleton :
    openDb none = (skeleton, skeleton) ∧
    (∀ d : List Nat, openDb (some d) = (d, d)) ∧
    skeleton = [0] ++ asciiBytes "shortcuts" ++ [0] ++ [8, 8] ∧
    skeleton.length = 13 ∧
    skeleton[0]? = some 0 ∧
    (skeleton.drop 1).take 9 = asciiBytes "shortcuts" ∧
    skeleton[10]? = some 0 ∧
    skeleton.drop 11 = [8, 8] :=
  ⟨rfl, fun _ => rfl, rfl, by decide, by decide, by decide, by decide, by decide⟩

/-- C9: the freshly written skeleton ends with the terminator 8, 8; every
successful insert produces a blob that again ends with 8, 8; and on such a
blob a later insert always takes the success branch, so a database the
program itself wrote never triggers the structure error. -/
theorem C9_terminator_invariant (B R out : List Nat)
    (hok : insertData B R = Except.ok out) :
    skeleton.drop (skeleton.length - 2) = [8, 8] ∧
    out.drop (out.length - 2) = [8, 8] ∧
    (∀ R2, insertData out R2 = Except.ok (out.take (out.length - 2) ++ R2 ++ [8, 8])) := by
  have hB : B.drop (B.length - 2) = [8, 8] := by
    by_contra hc
    rw [insertData, if_neg hc] at hok
    exact Except.noConfusion hok
  rw [insertData, if_pos hB] at hok
  injection hok with h
  subst h
  refine ⟨by decide, drop88_of_append _, ?_⟩
  intro R2
  rw [insertData, if_pos (drop88_of_append _)]

/-- Witness for C9: inserting the one-byte record 1 into the skeleton. -/
theorem C9_terminator_invariant_witness :
    insertData skeleton [1]
        = Except.ok [0, 115, 104, 111, 114, 116, 99, 117, 116, 115, 0, 1, 8, 8] ∧
    [0, 115, 104, 111, 114, 116, 99, 117, 116, 115, 0, 1, 8, 8].drop
        ([0, 115, 104, 111, 114, 116, 99, 117, 116, 115, 0, 1, 8, 8].length - 2) = [8, 8] :=
  ⟨rfl,
    (C9_terminator_invariant skeleton [1]
      [0, 115, 104, 111, 114, 116, 99, 117, 116, 115, 0, 1, 8, 8] rfl).2.1⟩

/-- C10 counterexample: running the database phase twice from the fresh
skeleton with the executable path "7" assigns index 0 and then index 8, not
0 and 1: the second run's scan finds the digit of the exe field value of
the first record (framed by the zero bytes of the encoding) as its last
match, so the indices of the two records are not consecutive. -/
theorem C10_counterexample :
    runTwiceIndices [55] (asciiBytes "/d") (asciiBytes "/c") skeleton = some (0, 8) ∧
    (8 : Nat) ≠ 0 + 1 :=
  ⟨by decide, by decide⟩

/-- C10 amended: two consecutive runs with identical inputs each succeed
and each append exactly one record, carrying the same appid and the
consecutive indices n and n + 1, provided the content before the terminator
does not end inside a candidate match and the scan finds no match in the
encoded record past its opening index marker. -/
theorem C10_two_runs (exe sd cfg data : List Nat)
    (hsuf : data.drop (data.length - 2) = [8, 8])
    (hmid : finalState none (data.take (data.length - 2)) = none ∨
      finalState none (data.take (data.length - 2)) = some [])
    (hT : findallDigits none
      (entryTail (appid APPNAME exe) APPNAME exe sd cfg ++ [8, 8]) = []) :
    growsByOne exe sd cfg data (nextIndexNat data) ∧
    growsByOne exe sd cfg (afterRun exe sd cfg data) (nextIndexNat data + 1) := by
  have hME : insertData data
      (make_entry (nextIndexNat data) (appid APPNAME exe) APPNAME exe sd cfg)
      = Except.ok (afterRun exe sd cfg data) := by
    rw [insertData, if_pos hsuf]
    rfl
  have h1 : growsByOne exe sd cfg data (nextIndexNat data) := by
    rw [growsByOne, runOnce, hME]
    rfl
  have hnext : nextIndexInt (afterRun exe sd cfg data) = (nextIndexNat data : Int) + 1 := by
    show nextIndexInt (data.take (data.length - 2)
      ++ make_entry (nextIndexNat data) (appid APPNAME exe) APPNAME exe sd cfg ++ [8, 8]) = _
    rw [make_entry_decomp]
    exact nextIndexInt_insert _ _ _ hmid hT
  have hnat : nextIndexNat (afterRun exe sd cfg data) = nextIndexNat data + 1 := by
    rw [nextIndexNat, hnext]
    omega
  have hsuf2 : (afterRun exe sd cfg data).drop ((afterRun exe sd cfg data).length - 2)
      = [8, 8] := by
    show ((data.take (data.length - 2)
      ++ make_entry (nextIndexNat data) (appid APPNAME exe) APPNAME exe sd cfg) ++ [8, 8]).drop _
      = [8, 8]
    exact drop88_of_append _
  have hME2 : insertData (afterRun exe sd cfg data)
      (make_entry (nextIndexNat (afterRun exe sd cfg data)) (appid APPNAME exe) APPNAME exe sd cfg)
      = Except.ok ((afterRun exe sd cfg data).take ((afterRun exe sd cfg data).length - 2)
        ++ make_entry (nextIndexNat (afterRun exe sd cfg data)) (appid APPNAME exe)
            APPNAME exe sd cfg
        ++ [8, 8]) := by
    rw [insertData, if_pos hsuf2]
  have h2 : growsByOne exe sd cfg (afterRun exe sd cfg data) (nextIndexNat data + 1) := by
    rw [growsByOne, runOnce, hME2, hnat]
  exact ⟨h1, h2⟩

/-- Witness for C10 on the skeleton with benign field values. -/
theorem C10_two_runs_witness :
    (skeleton.drop (skeleton.length - 2) = [8, 8] ∧
      findallDigits none
        (entryTail (appid APPNAME (asciiBytes "/e")) APPNAME (asciiBytes "/e")
          (asciiBytes "/d") (asciiBytes "/c") ++ [8, 8]) = []) ∧
    growsByOne (asciiBytes "/e") (asciiBytes "/d") (asciiBytes "/c") skeleton 0 ∧
    growsByOne (asciiBytes "/e") (asciiBytes "/d") (asciiBytes "/c")
      (afterRun (asciiBytes "/e") (asciiBytes "/d") (asciiBytes "/c") skeleton) 1 := by
  have h := C10_two_runs (asciiBytes "/e") (asciiBytes "/d") (asciiBytes "/c") skeleton
    (by decide) (by decide) (by decide)
  exact ⟨⟨by decide, by decide⟩, h.1, h.2⟩
